import Mathlib

/-!
Verification of the structured-content extraction engine of the
`ppt-to-learning` repository: a shallow embedding of the section
resolver, shape classifier / slide assembler and SmartArt diagram
resolver (`src/ppt_to_learning/extractors/pptx_extractor.py`,
`src/ppt_to_learning/extractors/smartart_extractor.py`,
`src/ppt_to_learning/core/models.py`), together with proofs and
refutations of the specified properties.

Conventions of the embedding:
* Python dicts keyed by strings are modelled as association lists in
  write order; lookup takes the *last* binding (Python assignment
  overwrites), key membership is membership in the written keys.
* Python truthiness of an optional string (`if s:`) is modelled by
  `optTruthy`: `None` and the empty string are falsy.
* The document-object layer (python-pptx, lxml) is out of scope per the
  spec; its outcomes (a shape's resolved video info, a point's extracted
  text and resolved icon path, a related-part's availability) appear as
  input data of the embedded records.
* Unbounded recursion in the source (`_build_tree`, which has no cycle
  guard) is embedded with explicit fuel; exhausted fuel models Python's
  `RecursionError`, which the extractor's catch-all turns into "no
  result".
-/

namespace PptToLearning

/-! ### Core data model (`core/models.py`) -/

/-- `SmartArtNode` from `core/models.py`: id, text, children, level,
icon, icon_alt (field order as in the dataclass). -/
inductive SmartArtNode where
  | mk (id : String) (text : String) (children : List SmartArtNode)
       (level : Nat) (icon : Option String) (iconAlt : Option String)

def SmartArtNode.id : SmartArtNode → String
  | .mk i _ _ _ _ _ => i

def SmartArtNode.text : SmartArtNode → String
  | .mk _ t _ _ _ _ => t

def SmartArtNode.children : SmartArtNode → List SmartArtNode
  | .mk _ _ cs _ _ _ => cs

def SmartArtNode.level : SmartArtNode → Nat
  | .mk _ _ _ l _ _ => l

def SmartArtNode.icon : SmartArtNode → Option String
  | .mk _ _ _ _ ic _ => ic

def SmartArtNode.iconAlt : SmartArtNode → Option String
  | .mk _ _ _ _ _ ia => ia

/-- `ListItem` from `core/models.py` (text, level, children).
Modelled from the spec: the `url` field ("optional hyperlink url") is
present in the spec's data model and is passed by
`PptxExtractor._process_text_frame`, but is missing from the `ListItem`
dataclass in `core/models.py`; see the C2 analysis below. -/
structure ListItem where
  text : String
  level : Nat
  url : Option String
  children : List Unit
deriving DecidableEq

/-- The `ContentBlock` variants of `core/models.py`.
Modelled from the spec: the `link` and `video` variants (`LinkBlock`,
`VideoBlock`) are imported and constructed by
`extractors/pptx_extractor.py` but are absent from `core/models.py`;
their fields follow the spec (`Link(text,url)`, `Video(src-or-url,
title)`) and the constructor calls in `pptx_extractor.py`. -/
inductive ContentBlock where
  | heading (text : String) (level : Nat)
  | paragraph (text : String)
  | listBlock (style : String) (items : List ListItem)
  | image (src : String) (alt : String) (caption : String)
  | smartArt (layout : String) (nodes : List SmartArtNode)
  | table (rows : List (List String))
  | link (text : String) (url : String)
  | video (src : String) (title : String)

/-- `Slide` from `core/models.py`. -/
structure Slide where
  order : Nat
  title : String
  layout : String
  notes : String
  content : List ContentBlock

/-- `Section` from `core/models.py`. -/
structure Section where
  title : String
  slides : List Slide

/-- `PresentationMetadata` from `core/models.py`; the `stats` dict is
flattened into its two keys `slide_count` and `image_count`. -/
structure PresentationMetadata where
  id : String
  sourceFile : String
  processedAt : String
  slideCountStat : Nat
  imageCountStat : Nat

/-- `Presentation` from `core/models.py`. -/
structure Presentation where
  metadata : PresentationMetadata
  sections : List Section

/-! ### Python-dict and truthiness helpers -/

/-- Python `str.strip()` over the string's character data (kept at the
`List Char` level so that concrete instances evaluate inside the
kernel). -/
def pyStrip (s : String) : String :=
  String.mk
    (((s.data.dropWhile Char.isWhitespace).reverse.dropWhile
        Char.isWhitespace).reverse)

/-- Python truthiness of an optional string: `None` and `""` are falsy. -/
def optTruthy : Option String → Bool
  | none => false
  | some s => !s.isEmpty

/-- Lookup in an association list written in program order; the *last*
binding wins, matching Python dict assignment. -/
def dget (m : List (String × String)) (k : String) : Option String :=
  (m.reverse.find? (fun p => p.1 == k)).map (·.2)

/-- The key set of an association list. -/
def dkeys (m : List (String × String)) : List String := m.map (·.1)

/-! ### SmartArt extractor (`extractors/smartart_extractor.py`) -/

/-- One `dgm:pt` of a diagram data part, as consumed by
`SmartArtExtractor.extract`: `modelId`, the `type` attribute, the text
assembled by `_extract_text`, and the icon path / alt text produced by
`_extract_icon_and_alt` (icon resolution and persistence go through the
out-of-scope document layer, so their outcome is input data here), plus
the `prSet/@presAssocID` attribute. -/
structure DiagPoint where
  modelId : String
  ptType : Option String
  text : String
  icon : Option String
  iconAlt : Option String
  presAssocId : Option String
deriving DecidableEq

/-- One `dgm:cxn` edge: `srcId`, `destId` and the optional `type`
attribute. -/
structure DiagCxn where
  srcId : String
  destId : String
  cxnType : Option String
deriving DecidableEq

/-- A diagram data part after XML parsing: its points and connections. -/
structure DiagPayload where
  points : List DiagPoint
  cxns : List DiagCxn
deriving DecidableEq

/-- The mutable per-point record held in `nodes_map` (a `SmartArtNode`
before tree building assigns level and children): id, text, icon,
icon_alt. -/
structure SAPointNode where
  id : String
  text : String
  icon : Option String
  iconAlt : Option String
deriving DecidableEq

/-- `_parse_points`: builds `nodes[mid] = SmartArtNode(...)` for every
point.  Python dict semantics on a duplicated `modelId`: the value of
the last write at the position of the first insertion. -/
def parsePoints (pts : List DiagPoint) : List SAPointNode :=
  pts.foldl
    (fun acc p =>
      let n : SAPointNode := ⟨p.modelId, p.text, p.icon, p.iconAlt⟩
      if acc.any (fun m => m.id == p.modelId) then
        acc.map (fun m => if m.id == p.modelId then n else m)
      else acc ++ [n])
    []

def getPNode (nodes : List SAPointNode) (mid : String) : Option SAPointNode :=
  nodes.find? (fun m => m.id == mid)

/-- `data_root_id`: the `modelId` of the first point with `type="doc"`. -/
def dataRootId (pts : List DiagPoint) : Option String :=
  (pts.find? (fun p => p.ptType == some "doc")).map (·.modelId)

/-- The `visual_to_data` dict: `presOf` edges (`dest ↦ src`) in document
order, then the explicit `presAssocID` associations (`mid ↦ assoc`,
skipped when the attribute is falsy), later writes overwriting earlier
ones via `dget`. -/
def visualToData (pl : DiagPayload) : List (String × String) :=
  ((pl.cxns.filter (fun c => c.cxnType == some "presOf")).map
      (fun c => (c.destId, c.srcId)))
    ++ pl.points.filterMap
      (fun p => match p.presAssocId with
        | some a => if a.isEmpty then none else some (p.modelId, a)
        | none => none)

/-- The `visual_parent` dict from `presParOf` edges: `dest ↦ src`. -/
def visualParentPairs (cs : List DiagCxn) : List (String × String) :=
  (cs.filter (fun c => c.cxnType == some "presParOf")).map
    (fun c => (c.destId, c.srcId))

/-- The `visual_children` dict from `presParOf` edges: the destinations
under a given source, in document order. -/
def visualChildrenOf (cs : List DiagCxn) (s : String) : List String :=
  (cs.filter (fun c => c.cxnType == some "presParOf" && c.srcId == s)).map
    (·.destId)

/-- The loop body of `_find_data_owner`: `while curr and curr not in
visited`, self association, sibling scan, then climb to the
presentation parent.  The `fuel` argument only caps the iteration count
(the Python loop is bounded because `visited` grows). -/
def findDataOwnerLoop (v2d vpar : List (String × String))
    (vchild : String → List String) (rootId : Option String) :
    Nat → List String → String → Option String
  | 0, _, _ => none
  | fuel + 1, visited, curr =>
    if curr.isEmpty ∨ curr ∈ visited then none
    else
      let visited' := curr :: visited
      let fromSelf : Option String :=
        match dget v2d curr with
        | some did => if rootId ≠ some did then some did else none
        | none => none
      match fromSelf with
      | some did => some did
      | none =>
        let parent := dget vpar curr
        let fromSib : Option String :=
          match parent with
          | some p =>
            if p.isEmpty then none
            else
              (vchild p).findSome? (fun sib =>
                if sib ≠ curr then
                  match dget v2d sib with
                  | some did => if rootId ≠ some did then some did else none
                  | none => none
                else none)
          | none => none
        match fromSib with
        | some did => some did
        | none =>
          match parent with
          | none => none
          | some p => findDataOwnerLoop v2d vpar vchild rootId fuel visited' p

/-- `_find_data_owner`, entered at the point that carries the icon. -/
def findDataOwner (v2d vpar : List (String × String))
    (vchild : String → List String) (rootId : Option String)
    (vid : String) : Option String :=
  findDataOwnerLoop v2d vpar vchild rootId (vpar.length + 2) [] vid

/-- The two object mutations of an icon move
(`nodes_map[owner].icon = ...` / `node.icon = None`), as a functional
update of the node list at one id. -/
def setIcon (nodes : List SAPointNode) (tid : String)
    (ic ia : Option String) : List SAPointNode :=
  nodes.map (fun m => if m.id = tid then { m with icon := ic, iconAlt := ia } else m)

/-- One iteration of step 4 of `SmartArtExtractor.extract` (icon
ownership reassignment) for the point `mid`, over the current state of
`nodes_map`. -/
def reassignStep (v2d vpar : List (String × String))
    (vchild : String → List String) (rootId : Option String)
    (nodes : List SAPointNode) (mid : String) : List SAPointNode :=
  match getPNode nodes mid with
  | none => nodes
  | some node =>
    if optTruthy node.icon then
      match findDataOwner v2d vpar vchild rootId mid with
      | none => nodes
      | some owner =>
        if optTruthy (some owner) ∧ owner ≠ mid ∧
            (nodes.map (·.id)).contains owner then
          match getPNode nodes owner with
          | none => nodes
          | some ow =>
            if optTruthy ow.icon then nodes
            else setIcon (setIcon nodes owner node.icon node.iconAlt) mid none none
        else nodes
    else nodes

/-- Step 4 of `SmartArtExtractor.extract`: the reassignment pass over
`nodes_map.items()` in insertion order. -/
def reassignIcons (v2d vpar : List (String × String))
    (vchild : String → List String) (rootId : Option String)
    (nodes0 : List SAPointNode) : List SAPointNode :=
  (nodes0.map (·.id)).foldl (reassignStep v2d vpar vchild rootId) nodes0

/-- The `parOf`-typed structural connections:
`cxn.get("type", "parOf") == "parOf"`. -/
def structuralConns (cs : List DiagCxn) : List (String × String) :=
  (cs.filter (fun c => c.cxnType == none || c.cxnType == some "parOf")).map
    (fun c => (c.srcId, c.destId))

/-- The `children` adjacency of `_build_tree`, restricted to pairs with
both endpoints in `nodes_map`. -/
def childrenOf (nodes : List SAPointNode) (conns : List (String × String))
    (mid : String) : List String :=
  (conns.filter (fun sd =>
      nodes.any (fun m => m.id == sd.1) && nodes.any (fun m => m.id == sd.2)
        && sd.1 == mid)).map (·.2)

/-- The `has_parent` set of `_build_tree`. -/
def hasParentIds (nodes : List SAPointNode)
    (conns : List (String × String)) : List String :=
  (conns.filter (fun sd =>
      nodes.any (fun m => m.id == sd.1) && nodes.any (fun m => m.id == sd.2))).map
    (·.2)

/-- The root candidates of `_build_tree`:
`m not in has_parent and m not in pres_points`, in `nodes_map` order. -/
def rootIds (nodes : List SAPointNode) (conns : List (String × String))
    (presPoints : List String) : List String :=
  (nodes.map (·.id)).filter (fun m =>
    !(hasParentIds nodes conns).contains m && !presPoints.contains m)

/-- Sequencing of the recursive child builds (the `for cid in
children[mid]` loop); `none` propagates a failed (out-of-fuel) build. -/
def buildKidsAux (f : String → Option SmartArtNode) :
    List String → Option (List SmartArtNode)
  | [] => some []
  | m :: rest =>
    match f m, buildKidsAux f rest with
    | some n, some ns => some (n :: ns)
    | _, _ => none

/-- The inner `build(mid, lvl)` of `_build_tree`.  The source recursion
has no cycle guard; `fuel` makes the embedding total, with `none`
standing for the `RecursionError` that a `parOf` cycle reachable from a
root produces in Python. -/
def buildNode (nodes : List SAPointNode) (conns : List (String × String))
    (presPoints : List String) : Nat → String → Nat → Option SmartArtNode
  | 0, _, _ => none
  | fuel + 1, mid, lvl =>
    match getPNode nodes mid with
    | none => none
    | some n =>
      let kids := (childrenOf nodes conns mid).filter
        (fun c => !presPoints.contains c)
      match buildKidsAux
          (fun c => buildNode nodes conns presPoints fuel c (lvl + 1)) kids with
      | some cs => some (SmartArtNode.mk mid n.text cs lvl n.icon n.iconAlt)
      | none => none

/-- The final root-collapse loop of `_build_tree`: a root with falsy
stripped text, falsy icon and nonempty children is replaced by its
children. -/
def collapseRoot (r : SmartArtNode) : List SmartArtNode :=
  if (pyStrip r.text).isEmpty && !(optTruthy r.icon) && !r.children.isEmpty then
    r.children
  else [r]

/-- `_build_tree`: build every root with the embedding fuel
`nodes.length + 1` (enough for any acyclic `parOf` relation), then
collapse organizational roots. -/
def buildTree (nodes : List SAPointNode) (conns : List (String × String))
    (presPoints : List String) : Option (List SmartArtNode) :=
  match buildKidsAux
      (fun m => buildNode nodes conns presPoints (nodes.length + 1) m 0)
      (rootIds nodes conns presPoints) with
  | some roots => some (roots.map collapseRoot).flatten
  | none => none

/-- The keep condition of `_filter_empty_nodes`:
`n.text.strip() or n.icon or n.children` (children already filtered). -/
def keepNode (t : String) (ic : Option String)
    (cs : List SmartArtNode) : Bool :=
  !(pyStrip t).isEmpty || optTruthy ic || !cs.isEmpty

/-- `_filter_empty_nodes`: bottom-up removal of nodes with blank text,
no icon and no surviving children. -/
def filterEmptyNodes : List SmartArtNode → List SmartArtNode
  | [] => []
  | SmartArtNode.mk i t cs lvl ic ia :: rest =>
    let fcs := filterEmptyNodes cs
    if keepNode t ic fcs then
      SmartArtNode.mk i t fcs lvl ic ia :: filterEmptyNodes rest
    else filterEmptyNodes rest

/-- The result dict of `SmartArtExtractor.extract`. -/
structure SAResult where
  layout : String
  nodes : List SmartArtNode

/-- `SmartArtExtractor.extract` from the parsed payload on: steps 1–5.
The earlier guards (`_is_smartart`, relationship id, related part,
`etree.fromstring`) are the document layer; a shape failing them is
modelled upstream as having no payload.  `layoutName` is the outcome of
`_get_layout_name`.  A `none` result models only the catch-all on a
diverging tree build — the function returns a (truthy, two-key) dict for
every parsed payload, even with no doc root, no connections or no
points. -/
def smartArtExtract (layoutName : String) (pl : DiagPayload) :
    Option SAResult :=
  let nodes0 := parsePoints pl.points
  let v2d := visualToData pl
  let vpar := visualParentPairs pl.cxns
  let vchild := visualChildrenOf pl.cxns
  let rootId := dataRootId pl.points
  let nodes1 := reassignIcons v2d vpar vchild rootId nodes0
  let sconns := structuralConns pl.cxns
  let presPts := dkeys v2d ++ dkeys vpar
  match buildTree nodes1 sconns presPts with
  | some roots => some ⟨layoutName, filterEmptyNodes roots⟩
  | none => none

/-! ### Pptx extractor (`extractors/pptx_extractor.py`) -/

/-- The outcome of `_extract_video_info` for one shape: an external
`http`/`https` link (`{'url': ..., 'title': ...}`), an embedded video
persisted to `src` (`{'src': ..., 'title': ...}`), or nothing.  The XML
probing and relationship resolution behind it belong to the document
layer. -/
inductive VideoInfo where
  | externalLink (title : String) (url : String)
  | embedded (title : String) (src : String)
deriving DecidableEq

/-- One paragraph of a text frame: its raw text, native indent level and
the outcome of `_extract_hyperlink_from_paragraph` (the first run with a
resolvable hyperlink address, or none). -/
structure TextPara where
  text : String
  level : Nat
  url : Option String
deriving DecidableEq

/-- One shape as consumed by `_process_slide`: identity and position,
whether it is the slide's designated title shape, and the capability
outcomes probed by the classifier chain.  `imageWrite = some b` means
the shape exposes `image.blob`, with `b` the success of persisting it;
`diagram = some d` means the shape is a graphics frame, with `d` the
resolvable layout/payload (or `none` when `SmartArtExtractor.extract`
fails before parsing). -/
structure PShape where
  shapeId : Nat
  name : String
  top : Int
  left : Int
  isTitle : Bool
  video : Option VideoInfo
  table : Option (List (List String))
  diagram : Option (Option (String × DiagPayload))
  imageWrite : Option Bool
  textParas : Option (List TextPara)
deriving DecidableEq

/-- `_process_text_frame`: one `ListItem` per non-blank paragraph
(stripped text, native level, extracted url), wrapped in a single
bullet `List` block; nothing when every paragraph is blank. -/
def processTextFrame (paras : List TextPara) : List ContentBlock :=
  let items := paras.filterMap (fun p =>
    if (pyStrip p.text).isEmpty then none
    else some (ListItem.mk (pyStrip p.text) p.level p.url []))
  if items.isEmpty then [] else [ContentBlock.listBlock "bullet" items]

/-- The image-then-text tail of the classifier chain in
`_process_slide`: a persisted image blob emits one `Image` block and
counts one image; a failed write falls through to the text branch. -/
def imageTextPart (order : Nat) (fileId : String) (shape : PShape) :
    List ContentBlock × Nat :=
  match shape.imageWrite with
  | some true =>
    ([ContentBlock.image
        ("media/" ++ fileId ++ "/slide_" ++ toString order ++ "_"
          ++ toString shape.shapeId ++ ".png")
        shape.name ""], 1)
  | _ =>
    match shape.textParas with
    | some paras =>
      if (pyStrip (String.intercalate "\n" (paras.map (·.text)))).isEmpty then
        ([], 0)
      else (processTextFrame paras, 0)
    | none => ([], 0)

/-- The per-shape body of the loop in `_process_slide`: video probe,
title skip, table, diagram, image, text — returning the emitted blocks
and the image-count delta. -/
def processShape (order : Nat) (fileId : String) (shape : PShape) :
    List ContentBlock × Nat :=
  let vblocks : List ContentBlock :=
    match shape.video with
    | some (.externalLink t u) => [ContentBlock.link t u]
    | some (.embedded t s) => [ContentBlock.video s t]
    | none => []
  if shape.isTitle then (vblocks, 0)
  else
    match shape.table with
    | some rows =>
      (vblocks ++ [ContentBlock.table (rows.map (fun r => r.map pyStrip))], 0)
    | none =>
      match shape.diagram with
      | some inner =>
        match inner.bind (fun lp => smartArtExtract lp.1 lp.2) with
        | some res => (vblocks ++ [ContentBlock.smartArt res.layout res.nodes], 0)
        | none =>
          let r := imageTextPart order fileId shape
          (vblocks ++ r.1, r.2)
      | none =>
        let r := imageTextPart order fileId shape
        (vblocks ++ r.1, r.2)

/-- The stable shape ordering of `_process_slide`:
`shapes.sort(key=lambda s: (s.top, s.left))`. -/
def shapeLE (a b : PShape) : Bool :=
  a.top < b.top || (a.top == b.top && a.left ≤ b.left)

/-- One slide of the deck as consumed by `_process_slide`: its
`slide_id`, layout name (none when `slide_layout` is falsy), the
designated title shape's text and first hyperlink (none when there is no
title shape), the shape list and the notes text (none when there is no
notes slide / frame). -/
structure RawSlide where
  slideId : Nat
  layoutName : Option String
  titleText : Option String
  titleUrl : Option String
  shapes : List PShape
  notes : Option String
deriving DecidableEq

/-- The title handling at the top of `_process_slide`: a `Heading`
block for a non-blank title, followed by a `Link` block when the title
text carries a hyperlink. -/
def titleBlocksOf (titleText titleUrl : Option String) : List ContentBlock :=
  let tstripped := pyStrip (titleText.getD "")
  if titleText.isSome && !tstripped.isEmpty then
    ContentBlock.heading tstripped 1 ::
      (match titleUrl with
        | some u => if u.isEmpty then [] else [ContentBlock.link tstripped u]
        | none => [])
  else []

/-- `_process_slide`: title blocks, the classifier fold over the sorted
shapes, notes and layout; returns the assembled `Slide` and the
image-count delta. -/
def processSlide (order : Nat) (fileId : String) (s : RawSlide) :
    Slide × Nat :=
  let tstripped := pyStrip (s.titleText.getD "")
  let titleIsSet := s.titleText.isSome && !tstripped.isEmpty
  let title := if titleIsSet then tstripped else ""
  let titleBlocks := titleBlocksOf s.titleText s.titleUrl
  let sorted := s.shapes.mergeSort shapeLE
  let folded := sorted.foldl
    (fun (acc : List ContentBlock × Nat) sh =>
      let r := processShape order fileId sh
      (acc.1 ++ r.1, acc.2 + r.2))
    ([], 0)
  (⟨order, title, s.layoutName.getD "Unknown", s.notes.getD "",
      titleBlocks ++ folded.1⟩,
    folded.2)

/-- The document as consumed by `extract` / `_get_sections_mapping`:
the ordered deck (`prs.slides`), the native-section accessor
(availability flag, the section list, and `nativeErrAfter = some k`
when iterating it raises after `k` sections were appended), and the
declarative XML fallback (`some` of the `p14:sectionLst` entries —
title and slide-id list — when one is found and processed without
error, `none` otherwise). -/
structure RawDoc where
  deck : List RawSlide
  nativeAvailable : Bool
  nativeSecs : List (String × List RawSlide)
  nativeErrAfter : Option Nat
  xmlSecs : Option (List (String × List Nat))
deriving DecidableEq

/-- The deck's slide-identity index
(`{slide.slide_id: slide for slide in prs.slides}`, last write wins). -/
def slideIndex (deck : List RawSlide) (sid : Nat) : Option RawSlide :=
  deck.reverse.find? (fun s => s.slideId == sid)

/-- The XML-fallback tier of `_get_sections_mapping`, entered with the
`mapping` accumulated so far (empty, or the partial native output kept
after a native error): resolve each declarative section's slide ids
against the deck index, silently dropping unresolvable ids, keep
non-empty sections, and return `mapping ++ resolved`; with no
`sectionLst` (or an exception), the function falls to its final
`return []`, discarding `mapping`. -/
def xmlTier (doc : RawDoc) (mapping0 : List (String × List RawSlide)) :
    List (String × List RawSlide) :=
  match doc.xmlSecs with
  | none => []
  | some secs =>
    mapping0 ++ secs.filterMap (fun sec =>
      let resolved := sec.2.filterMap (slideIndex doc.deck)
      if resolved.isEmpty then none else some (sec.1, resolved))

/-- `_get_sections_mapping`: native tier (kept sections are the
non-empty ones; an error mid-iteration keeps the sections appended so
far and falls through), then the XML tier. -/
def getSectionsMapping (doc : RawDoc) : List (String × List RawSlide) :=
  if doc.nativeAvailable && !doc.nativeSecs.isEmpty then
    match doc.nativeErrAfter with
    | none => doc.nativeSecs.filter (fun sec => !sec.2.isEmpty)
    | some k =>
      xmlTier doc ((doc.nativeSecs.take k).filter (fun sec => !sec.2.isEmpty))
  else xmlTier doc []

/-- The section map actually iterated by `extract`: the resolver's
output, or the synthetic `Default` section over the whole deck when it
is empty. -/
def resolvedSections (doc : RawDoc) : List (String × List RawSlide) :=
  let m := getSectionsMapping doc
  if m.isEmpty then [("Default", doc.deck)] else m

/-- The inner slide loop of `extract` for one section: threads the
global `slide_count`, collecting slides and the image count. -/
def processSlidesFrom (fileId : String) :
    Nat → List RawSlide → List Slide × Nat × Nat
  | cnt, [] => ([], cnt, 0)
  | cnt, s :: rest =>
    let r := processSlide (cnt + 1) fileId s
    let rec' := processSlidesFrom fileId (cnt + 1) rest
    (r.1 :: rec'.1, rec'.2.1, r.2 + rec'.2.2)

/-- The section loop of `extract`: threads the slide counter across
sections and sums image counts. -/
def processSectionsFrom (fileId : String) :
    Nat → List (String × List RawSlide) → List Section × Nat × Nat
  | cnt, [] => ([], cnt, 0)
  | cnt, (title, slides) :: rest =>
    let r := processSlidesFrom fileId cnt slides
    let rec' := processSectionsFrom fileId r.2.1 rest
    (⟨title, r.1⟩ :: rec'.1, rec'.2.1, r.2.2 + rec'.2.2)

/-- `PptxExtractor.extract` from the parsed document on: section
resolution, slide processing with global numbering, metadata. -/
def extractP (fileId sourceFile processedAt : String) (doc : RawDoc) :
    Presentation :=
  let secsMap := resolvedSections doc
  let r := processSectionsFrom fileId 0 secsMap
  ⟨⟨fileId, sourceFile, processedAt, r.2.1, r.2.2⟩, r.1⟩

/-! ### Property-side definitions -/

/-- Recognizer for `Image` blocks (used by the image-count property). -/
def isImageBlock : ContentBlock → Bool
  | .image _ _ _ => true
  | _ => false

/-- Recognizer for `SmartArt` blocks. -/
def isSmartArtBlock : ContentBlock → Bool
  | .smartArt _ _ => true
  | _ => false

/-- Total number of `Image` blocks across all slides of all sections. -/
def countImageBlocksP (p : Presentation) : Nat :=
  (((p.sections.map (·.slides)).flatten).map
    (fun s => s.content.countP isImageBlock)).sum

/-- Number of nodes currently carrying the icon value `v`. -/
def countIcon (nodes : List SAPointNode) (v : String) : Nat :=
  nodes.countP (fun n => n.icon == some v)

/-- Coverage of the declarative XML tier: the section entries' slide-id
lists concatenate to exactly the deck's id list (`True` when the tier
is absent and the Default tier fires). -/
def xmlCoverage (doc : RawDoc) : Bool :=
  match doc.xmlSecs with
  | some secs => (secs.map Prod.snd).flatten == doc.deck.map (·.slideId)
  | none => true

/-- Coverage of whichever resolution tier fires for `doc`: the tier's
section data enumerates the deck exactly (and, after a native error,
the retained partial native output is empty).  This is the hypothesis
under which the spec's partition property holds. -/
def tierCoverage (doc : RawDoc) : Bool :=
  if doc.nativeAvailable && !doc.nativeSecs.isEmpty then
    match doc.nativeErrAfter with
    | none => (doc.nativeSecs.map Prod.snd).flatten == doc.deck
    | some k =>
      ((doc.nativeSecs.take k).filter (fun sec => !sec.2.isEmpty)).isEmpty
        && xmlCoverage doc
  else xmlCoverage doc

/-- `d` is a proper descendant of `t` in a `SmartArtNode` tree. -/
inductive ProperDesc : SmartArtNode → SmartArtNode → Prop where
  | base (t c : SmartArtNode) : c ∈ t.children → ProperDesc c t
  | step (t c d : SmartArtNode) :
      c ∈ t.children → ProperDesc d c → ProperDesc d t

/-- The spec's invariant "no node is its own ancestor": no subtree of
`t` has a proper descendant with its own id. -/
def NoSelfAncestor (t : SmartArtNode) : Prop :=
  ∀ s, (s = t ∨ ProperDesc s t) → ∀ d, ProperDesc d s → d.id ≠ s.id

/-- The node rank strictly decreases along every parent-child edge of
the tree (witnessing acyclicity of the built structure). -/
inductive RankDec (rank : String → Nat) : SmartArtNode → Prop where
  | mk (i t : String) (cs : List SmartArtNode) (lvl : Nat)
      (ic ia : Option String)
      (hlt : ∀ c ∈ cs, rank c.id < rank i)
      (hrec : ∀ c, c ∈ cs → RankDec rank c) :
      RankDec rank (SmartArtNode.mk i t cs lvl ic ia)

/-- The field names of the `ListItem` dataclass in `core/models.py`
(`text`, `level`, `children`; defaults aside, these are the accepted
constructor keywords). -/
def listItemFieldNames : List String := ["text", "level", "children"]

/-- The keyword arguments passed to `ListItem(...)` by
`PptxExtractor._process_text_frame`
(`ListItem(text=text, level=p.level, url=url)`). -/
def listItemCallKeywords : List String := ["text", "level", "url"]

/-- A Python dataclass call with keyword arguments succeeds only if
every keyword names a declared field (otherwise `__init__` raises
`TypeError`). -/
def dataclassCallAccepted (fields kws : List String) : Bool :=
  kws.all (fun k => fields.contains k)

/-! ### Concrete instances for counterexamples and witnesses -/

/-- A bare slide with `slide_id` 1. -/
def rsA : RawSlide := ⟨1, none, none, none, [], none⟩

/-- A bare slide with `slide_id` 2. -/
def rsB : RawSlide := ⟨2, none, none, none, [], none⟩

/-- C1 counterexample document: a two-slide deck whose declarative
section list mentions only slide 1. -/
def c1CexDoc : RawDoc := ⟨[rsA, rsB], false, [], none, some [("A", [1])]⟩

/-- C1 witness document: no native and no declarative sections, so the
Default tier fires. -/
def c1WitDoc : RawDoc := ⟨[rsA, rsB], false, [], none, none⟩

/-- C4 payload: one point, no `doc`-typed root, no connections. -/
def c4Payload : DiagPayload := ⟨[⟨"p1", none, "x", none, none, none⟩], []⟩

/-- C4 shape: a graphics frame whose diagram payload is `c4Payload`. -/
def c4Shape : PShape :=
  ⟨1, "sa", 0, 0, false, none, none, some (some ("L", c4Payload)), none, none⟩

/-- C5 document: native sections raise after one section was appended,
and a declarative section list is present. -/
def c5Doc : RawDoc :=
  ⟨[rsA, rsB], true, [("N1", [rsA]), ("N2", [rsB])], some 1, some [("X", [2])]⟩

/-- C3 counterexample graph: points `r`, `a`, `b`. -/
def cycNodes : List SAPointNode :=
  [⟨"r", "R", none, none⟩, ⟨"a", "A", none, none⟩, ⟨"b", "B", none, none⟩]

/-- C3 counterexample edges: `r → a`, `a → b`, `b → a` — a `parOf`
cycle reachable from the single structural root `r`. -/
def cycConns : List (String × String) := [("r", "a"), ("a", "b"), ("b", "a")]

/-- C3 witness graph: an acyclic chain `r → a → b`. -/
def c3wNodes : List SAPointNode :=
  [⟨"r", "R", none, none⟩, ⟨"a", "A", none, none⟩, ⟨"b", "B", none, none⟩]

/-- C3 witness edges. -/
def c3wConns : List (String × String) := [("r", "a"), ("a", "b")]

/-- A topological ranking of the C3 witness graph. -/
def c3wRank : String → Nat :=
  fun m => if m = "r" then 2 else if m = "a" then 1 else 0

/-- C6 graph: a textless, iconless root `r` wrapping three children. -/
def c6Nodes : List SAPointNode :=
  [⟨"r", "  ", none, none⟩, ⟨"a", "A", none, none⟩,
   ⟨"b", "B", none, none⟩, ⟨"c", "C", none, none⟩]

/-- C6 edges: `r → a`, `r → b`, `r → c`. -/
def c6Conns : List (String × String) := [("r", "a"), ("r", "b"), ("r", "c")]

/-- The tree built for the C6 root before collapsing. -/
def c6Root : SmartArtNode :=
  .mk "r" "  "
    [.mk "a" "A" [] 1 none none, .mk "b" "B" [] 1 none none,
     .mk "c" "C" [] 1 none none]
    0 none none

/-- C8 witness: a decorative point `p` carrying an icon and the data
point `d` it presents. -/
def c8Nodes : List SAPointNode :=
  [⟨"p", "", some "ic.png", some "alt"⟩, ⟨"d", "D", none, none⟩]

/-! ### C2 -/

/-- C2: the claim says each `ListItem` carries the paragraph's first
resolvable hyperlink url.  The code cannot do this: `_process_text_frame`
passes the keyword `url` to `ListItem(...)`, but the `ListItem`
dataclass in `core/models.py` declares only `text`, `level`, `children`,
so the call raises `TypeError` on every non-blank paragraph (and
`pptx_extractor.py` additionally imports `LinkBlock`/`VideoBlock`, which
`core/models.py` does not define).  The claim describes the intent; the
code is the slip. -/
theorem c2_listitem_url_mismatch :
    dataclassCallAccepted listItemFieldNames listItemCallKeywords = false ∧
    listItemCallKeywords.contains "url" = true ∧
    listItemFieldNames.contains "url" = false := by decide

/-! ### C4 -/

/-- C4 counterexample: a payload with no `doc`-typed root, no
connections (and a single point) still yields a result from
`SmartArtExtractor.extract` (a truthy two-key dict), and the SmartArt
block is emitted, not omitted — refuting the claim that such payloads
yield no result. -/
theorem c4_no_structure_still_some_cex :
    c4Payload.cxns = [] ∧
    c4Payload.points.find? (fun p => p.ptType == some "doc") = none ∧
    (smartArtExtract "L" c4Payload).isSome = true ∧
    (processShape 1 "f" c4Shape).1.countP isSmartArtBlock = 1 := by
  refine ⟨rfl, rfl, rfl, rfl⟩

/-! ### C5 -/

/-- C5 counterexample: when native section iteration raises after one
section was appended and the declarative tier succeeds, the resolver
returns the partial native output *prepended* to the declarative
sections — not the declarative sections alone — refuting "no partial
native output is retained". -/
theorem c5_partial_native_retained_cex :
    getSectionsMapping c5Doc = [("N1", [rsA]), ("X", [rsB])] ∧
    xmlTier c5Doc [] = [("X", [rsB])] ∧
    getSectionsMapping c5Doc ≠ xmlTier c5Doc [] := by decide

/-- C5 amended: if accessing native sections raises after `k` sections
were accumulated, the resolver falls through to the declarative tier
carrying the retained partial native output with it (prepending it when
the declarative tier succeeds, discarding it when that tier yields
nothing); no error aborts the resolver, which stays a total function. -/
theorem c5_native_error_falls_through_amended (doc : RawDoc) (k : Nat)
    (h1 : doc.nativeAvailable = true) (h2 : doc.nativeSecs ≠ [])
    (h3 : doc.nativeErrAfter = some k) :
    getSectionsMapping doc =
      xmlTier doc ((doc.nativeSecs.take k).filter (fun sec => !sec.2.isEmpty)) ∧
    (doc.xmlSecs = none → getSectionsMapping doc = []) := by
  have hg : (doc.nativeAvailable && !doc.nativeSecs.isEmpty) = true := by
    simp [h1, h2]
  refine ⟨?_, fun hx => ?_⟩
  · simp [getSectionsMapping, hg, h3]
  · simp [getSectionsMapping, hg, h3, xmlTier, hx]

/-- C5 witness: the amended statement instantiated at `c5Doc`, `k = 1`. -/
theorem c5_amended_witness :
    c5Doc.nativeAvailable = true ∧ c5Doc.nativeSecs ≠ [] ∧
    c5Doc.nativeErrAfter = some 1 ∧
    (getSectionsMapping c5Doc =
        xmlTier c5Doc
          ((c5Doc.nativeSecs.take 1).filter (fun sec => !sec.2.isEmpty)) ∧
      (c5Doc.xmlSecs = none → getSectionsMapping c5Doc = [])) :=
  ⟨rfl, by decide, rfl,
    c5_native_error_falls_through_amended c5Doc 1 rfl (by decide) rfl⟩

/-! ### C6 -/

/-- C6: when exactly one structural root exists and the built root is
textless, iconless and has children, `_build_tree` drops it and returns
its children as the top-level output roots. -/
theorem c6_root_collapse (nodes : List SAPointNode)
    (conns : List (String × String)) (presPoints : List String)
    (m : String) (r : SmartArtNode)
    (hroot : rootIds nodes conns presPoints = [m])
    (hbuild : buildNode nodes conns presPoints (nodes.length + 1) m 0 = some r)
    (htext : (pyStrip r.text).isEmpty = true)
    (hicon : optTruthy r.icon = false)
    (hkids : r.children ≠ []) :
    buildTree nodes conns presPoints = some r.children := by
  have hke : r.children.isEmpty = false := by
    cases hc : r.children with
    | nil => exact absurd hc hkids
    | cons a l => simp
  unfold buildTree
  rw [hroot]
  simp [buildKidsAux, hbuild, collapseRoot, htext, hicon, hke]

/-- C6 witness: a diagram with a single textless, iconless root wrapping
three children produces exactly those three top-level nodes. -/
theorem c6_root_collapse_witness :
    rootIds c6Nodes c6Conns [] = ["r"] ∧
    buildNode c6Nodes c6Conns [] (c6Nodes.length + 1) "r" 0 = some c6Root ∧
    (pyStrip c6Root.text).isEmpty = true ∧ optTruthy c6Root.icon = false ∧
    c6Root.children ≠ [] ∧
    buildTree c6Nodes c6Conns [] = some c6Root.children :=
  ⟨rfl, rfl, by decide, by decide, by simp [c6Root, SmartArtNode.children],
    c6_root_collapse c6Nodes c6Conns [] "r" c6Root rfl rfl (by decide) (by decide)
      (by simp [c6Root, SmartArtNode.children])⟩

/-! ### C1 counterexample -/

/-- C1 counterexample: a two-slide deck whose declarative fallback
section list mentions only slide 1.  The resolver keeps the section, so
the concatenation of resolved sections' slides loses slide 2 and does
not equal the deck — refuting the unconditional partition claim. -/
theorem c1_sections_concat_cex :
    ((resolvedSections c1CexDoc).map Prod.snd).flatten ≠ c1CexDoc.deck := by
  decide

/-! ### C9 -/

/-- C9: empty-node filtering is idempotent — re-running
`_filter_empty_nodes` on an already-filtered forest is a no-op. -/
theorem c9_filter_empty_idempotent (ns : List SmartArtNode) :
    filterEmptyNodes (filterEmptyNodes ns) = filterEmptyNodes ns := by
  induction ns using filterEmptyNodes.induct with
  | case1 => simp [filterEmptyNodes]
  | case2 i t cs lvl ic ia rest hkeep ih1 ih2 ih3 =>
    have ih1' : keepNode t ic (filterEmptyNodes cs) = true := ih1
    simp only [filterEmptyNodes, ih1', if_true, ih2, ih3]
  | case3 i t cs lvl ic ia rest hkeep ih1 ih2 ih3 =>
    have ih1' : keepNode t ic (filterEmptyNodes cs) = false :=
      Bool.not_eq_true _ ▸ eq_false_of_ne_true ih1
    simp only [filterEmptyNodes, ih1', ih2, ih3]
    exact ih3

/-! ### C7 -/

/-- The slide loop numbers slides consecutively from `cnt + 1` and
returns the advanced counter. -/
theorem processSlidesFrom_spec (fid : String) :
    ∀ (slides : List RawSlide) (cnt : Nat),
      ((processSlidesFrom fid cnt slides).1.map Slide.order
        = List.range' (cnt + 1) slides.length)
      ∧ (processSlidesFrom fid cnt slides).2.1 = cnt + slides.length := by
  intro slides
  induction slides with
  | nil => intro cnt; simp [processSlidesFrom]
  | cons s rest ih =>
    intro cnt
    have h := ih (cnt + 1)
    have ho : (processSlide (cnt + 1) fid s).1.order = cnt + 1 := rfl
    constructor
    · simp [processSlidesFrom, h.1, ho, List.range'_succ]
    · simp [processSlidesFrom, h.2]; omega

/-- The section loop numbers all slides consecutively across section
boundaries. -/
theorem processSectionsFrom_spec (fid : String) :
    ∀ (secs : List (String × List RawSlide)) (cnt : Nat),
      ((((processSectionsFrom fid cnt secs).1.map Section.slides).flatten).map
          Slide.order
        = List.range' (cnt + 1) ((secs.map (fun sec => sec.2.length)).sum))
      ∧ (processSectionsFrom fid cnt secs).2.1
          = cnt + (secs.map (fun sec => sec.2.length)).sum := by
  intro secs
  induction secs with
  | nil => intro cnt; simp [processSectionsFrom]
  | cons sec rest ih =>
    intro cnt
    obtain ⟨t, slides⟩ := sec
    have h1 := processSlidesFrom_spec fid slides cnt
    have h2 := ih (cnt + slides.length)
    constructor
    · simp only [processSectionsFrom, List.map_cons, List.flatten_cons,
        List.map_append]
      rw [h1.1, h1.2, h2.1]
      have e1 : cnt + slides.length + 1 = (cnt + 1) + slides.length := by omega
      rw [e1, List.range'_append_1, List.sum_cons, Nat.add_comm slides.length _]
    · simp only [processSectionsFrom]
      rw [h1.2, h2.2]
      simp; omega

/-- C7: in every produced `Presentation` the slide `order` values, read
in section-then-slide order, are exactly `1..N` (no gaps, no repeats)
where `N` is the total slide count across all sections. -/
theorem c7_slide_orders_range (fid src ts : String) (doc : RawDoc) :
    (((extractP fid src ts doc).sections.map Section.slides).flatten).map
        Slide.order
      = List.range' 1
          ((((extractP fid src ts doc).sections.map Section.slides).flatten).length) := by
  have h := (processSectionsFrom_spec fid (resolvedSections doc) 0).1
  have hs : (extractP fid src ts doc).sections
      = (processSectionsFrom fid 0 (resolvedSections doc)).1 := rfl
  rw [hs, h]
  have hl := congrArg List.length
    ((processSectionsFrom_spec fid (resolvedSections doc) 0).1)
  simp only [List.length_map, List.length_range'] at hl
  rw [hl]

/-! ### C10 -/

/-- The image/text tail of the classifier emits exactly as many `Image`
blocks as it counts. -/
theorem imageTextPart_count (o : Nat) (f : String) (sh : PShape) :
    (imageTextPart o f sh).1.countP isImageBlock = (imageTextPart o f sh).2 := by
  unfold imageTextPart
  repeat' split
  all_goals simp_all [isImageBlock, processTextFrame]

/-- Every classifier branch emits exactly as many `Image` blocks as its
image-count delta. -/
theorem processShape_count (o : Nat) (f : String) (sh : PShape) :
    (processShape o f sh).1.countP isImageBlock = (processShape o f sh).2 := by
  have h := imageTextPart_count o f sh
  unfold processShape
  repeat' split
  all_goals simp_all [isImageBlock]

/-- The title blocks contain no `Image` block. -/
theorem titleBlocksOf_count (a b : Option String) :
    (titleBlocksOf a b).countP isImageBlock = 0 := by
  unfold titleBlocksOf
  repeat' split
  all_goals dsimp only
  all_goals (try split)
  all_goals rfl

/-- The shape fold of `_process_slide` keeps block count and image
counter in step. -/
theorem foldShapes_count (o : Nat) (f : String) :
    ∀ (shapes : List PShape) (acc : List ContentBlock × Nat),
      acc.1.countP isImageBlock = acc.2 →
      ((shapes.foldl
          (fun (acc : List ContentBlock × Nat) sh =>
            let r := processShape o f sh
            (acc.1 ++ r.1, acc.2 + r.2)) acc).1.countP isImageBlock)
        = (shapes.foldl
            (fun (acc : List ContentBlock × Nat) sh =>
              let r := processShape o f sh
              (acc.1 ++ r.1, acc.2 + r.2)) acc).2 := by
  intro shapes
  induction shapes with
  | nil => intro acc h; simpa using h
  | cons sh rest ih =>
    intro acc h
    simp only [List.foldl_cons]
    exact ih _ (by simp [List.countP_append, h, processShape_count])

/-- Per slide: the number of `Image` blocks in the assembled content
equals the returned image-count delta. -/
theorem processSlide_count (o : Nat) (f : String) (s : RawSlide) :
    (processSlide o f s).1.content.countP isImageBlock
      = (processSlide o f s).2 := by
  have hf := foldShapes_count o f (s.shapes.mergeSort shapeLE) ([], 0) (by simp)
  unfold processSlide
  simp only [List.countP_append]
  rw [hf, titleBlocksOf_count]
  simp only [Nat.zero_add]

/-- The slide loop sums the per-slide image counts. -/
theorem processSlidesFrom_count (fid : String) :
    ∀ (slides : List RawSlide) (cnt : Nat),
      (((processSlidesFrom fid cnt slides).1.map
          (fun sl => sl.content.countP isImageBlock)).sum)
        = (processSlidesFrom fid cnt slides).2.2 := by
  intro slides
  induction slides with
  | nil => intro cnt; simp [processSlidesFrom]
  | cons s rest ih =>
    intro cnt
    simp [processSlidesFrom, ih (cnt + 1), processSlide_count]

/-- The section loop sums the per-section image counts. -/
theorem processSectionsFrom_count (fid : String) :
    ∀ (secs : List (String × List RawSlide)) (cnt : Nat),
      ((((processSectionsFrom fid cnt secs).1.map Section.slides).flatten).map
          (fun sl => sl.content.countP isImageBlock)).sum
        = (processSectionsFrom fid cnt secs).2.2 := by
  intro secs
  induction secs with
  | nil => intro cnt; simp [processSectionsFrom]
  | cons sec rest ih =>
    intro cnt
    obtain ⟨t, slides⟩ := sec
    simp only [processSectionsFrom, List.map_cons, List.flatten_cons,
      List.map_append, List.sum_append]
    rw [processSlidesFrom_count fid slides cnt, ih _]

/-- C10: for every produced `Presentation`, `stats["image_count"]`
equals the total number of `Image` blocks over all slides of all
sections. -/
theorem c10_image_count_matches_blocks (fid src ts : String) (doc : RawDoc) :
    countImageBlocksP (extractP fid src ts doc)
      = (extractP fid src ts doc).metadata.imageCountStat := by
  have h := processSectionsFrom_count fid (resolvedSections doc) 0
  exact h

/-! ### C8 -/

/-- `setIcon` does not change node identities. -/
theorem setIcon_ids (l : List SAPointNode) (tid : String) (ic ia : Option String) :
    (setIcon l tid ic ia).map (·.id) = l.map (·.id) := by
  simp only [setIcon, List.map_map]
  apply List.map_congr_left
  intro m _
  by_cases h : m.id = tid <;> simp [h]

/-- Updating an id that occurs nowhere is a no-op. -/
theorem setIcon_not_mem (tid : String) (ic ia : Option String) :
    ∀ l : List SAPointNode, tid ∉ l.map (·.id) → setIcon l tid ic ia = l := by
  intro l
  induction l with
  | nil => intro _; rfl
  | cons y rest ih =>
    intro h
    simp only [List.map_cons, List.mem_cons] at h
    push_neg at h
    simp only [setIcon, List.map_cons]
    rw [if_neg (fun hy => h.1 hy.symm)]
    have hr := ih h.2
    simp only [setIcon] at hr
    rw [hr]

/-- Looking up an id other than the updated one is unaffected. -/
theorem getPNode_setIcon_ne (l : List SAPointNode) (tid mid : String)
    (ic ia : Option String) (h : tid ≠ mid) :
    getPNode (setIcon l tid ic ia) mid = getPNode l mid := by
  induction l with
  | nil => rfl
  | cons y rest ih =>
    simp only [setIcon, List.map_cons, getPNode] at ih ⊢
    rw [List.find?_cons, List.find?_cons]
    have hpred :
        ((if y.id = tid then ({y with icon := ic, iconAlt := ia} : SAPointNode)
            else y).id == mid) = (y.id == mid) := by
      by_cases h' : y.id = tid <;> simp [h']
    rw [hpred]
    cases hb : (y.id == mid) with
    | false => simpa using ih
    | true =>
      have hym : y.id = mid := by simpa using hb
      have hnt : ¬ y.id = tid := fun hh => h (hh ▸ hym)
      simp [hnt]

/-- The exchange equation for one icon-slot update: the updated node's
old value leaves the count and the written value enters it. -/
theorem countIcon_setIcon (tid : String) (ic ia : Option String) (v : String) :
    ∀ (l : List SAPointNode), (l.map (·.id)).Nodup →
      ∀ x : SAPointNode, getPNode l tid = some x →
      countIcon (setIcon l tid ic ia) v + (if x.icon == some v then 1 else 0)
        = countIcon l v + (if ic == some v then 1 else 0) := by
  intro l
  induction l with
  | nil => intro _ x hx; simp [getPNode] at hx
  | cons y rest ih =>
    intro hn x hx
    simp only [List.map_cons, List.nodup_cons] at hn
    by_cases hy : y.id = tid
    · have hxy : x = y := by
        simp only [getPNode, List.find?_cons, hy] at hx
        simp at hx
        exact hx.symm
      subst hxy
      have hrest : setIcon rest tid ic ia = rest :=
        setIcon_not_mem tid ic ia rest (hy ▸ hn.1)
      simp only [setIcon, List.map_cons, if_pos hy]
      simp only [setIcon] at hrest
      rw [hrest]
      simp only [countIcon, List.countP_cons]
      omega
    · have hx' : getPNode rest tid = some x := by
        simp only [getPNode, List.find?_cons] at hx
        have hf : (y.id == tid) = false := by simp [hy]
        rw [hf] at hx
        exact hx
      have := ih hn.2 x hx'
      simp only [setIcon, List.map_cons, if_neg hy]
      simp only [countIcon, List.countP_cons]
      simp only [setIcon, countIcon] at this
      omega

/-- One reassignment iteration does not change node identities. -/
theorem reassignStep_ids (v2d vpar : List (String × String))
    (vchild : String → List String) (rootId : Option String)
    (nodes : List SAPointNode) (mid : String) :
    (reassignStep v2d vpar vchild rootId nodes mid).map (·.id)
      = nodes.map (·.id) := by
  unfold reassignStep
  repeat' split
  all_goals simp [setIcon_ids]

/-- One reassignment iteration preserves, for every real icon value
`v ≠ ""`, the number of nodes carrying `v`: a move removes `v` from the
original point and installs it on an owner that had no icon. -/
theorem countIcon_reassignStep (v2d vpar : List (String × String))
    (vchild : String → List String) (rootId : Option String)
    (nodes : List SAPointNode) (mid : String) (v : String) (hv : v ≠ "")
    (hn : (nodes.map (·.id)).Nodup) :
    countIcon (reassignStep v2d vpar vchild rootId nodes mid) v
      = countIcon nodes v := by
  unfold reassignStep
  repeat' split
  all_goals try rfl
  rename_i xo node hnode htr xf owner hfind hcond xg ow hgow hni
  have hom : owner ≠ mid := hcond.2.1
  have h1 := countIcon_setIcon owner node.icon node.iconAlt v nodes hn ow hgow
  have hid1 : (setIcon nodes owner node.icon node.iconAlt).map (·.id)
      = nodes.map (·.id) := setIcon_ids _ _ _ _
  have hn1 : ((setIcon nodes owner node.icon node.iconAlt).map (·.id)).Nodup := by
    rw [hid1]; exact hn
  have hget : getPNode (setIcon nodes owner node.icon node.iconAlt) mid
      = some node := by
    rw [getPNode_setIcon_ne _ _ _ _ _ hom]
    exact hnode
  have h2 := countIcon_setIcon mid none none v _ hn1 node hget
  have howi : (if (ow.icon == some v) = true then 1 else 0) = 0 := by
    rcases hoi : ow.icon with _ | s
    · simp
    · have hsE : s.isEmpty = true := by
        simp [optTruthy, hoi] at hni
        exact hni
      have hs : s = "" := (String.isEmpty_iff s).mp hsE
      subst hs
      have hne : ((some "" : Option String) == some v) = false := by
        simp
        exact fun he => hv he.symm
      rw [hne]
      simp
  have hz : (if ((none : Option String) == some v) = true then 1 else 0) = 0 := by
    simp
  rw [howi] at h1
  rw [hz] at h2
  omega

/-- The whole reassignment pass preserves per-value icon counts. -/
theorem countIcon_reassignFold (v2d vpar : List (String × String))
    (vchild : String → List String) (rootId : Option String) (v : String)
    (hv : v ≠ "") :
    ∀ (mids : List String) (nodes : List SAPointNode),
      (nodes.map (·.id)).Nodup →
      countIcon (mids.foldl (reassignStep v2d vpar vchild rootId) nodes) v
        = countIcon nodes v := by
  intro mids
  induction mids with
  | nil => intro nodes _; rfl
  | cons m rest ih =>
    intro nodes hn
    simp only [List.foldl_cons]
    have hids := reassignStep_ids v2d vpar vchild rootId nodes m
    have hn' : ((reassignStep v2d vpar vchild rootId nodes m).map (·.id)).Nodup := by
      rw [hids]; exact hn
    rw [ih _ hn', countIcon_reassignStep v2d vpar vchild rootId nodes m v hv hn]

/-- C8: after the icon-ownership reassignment pass, every real icon
value is attached to exactly as many nodes as before; in particular an
icon carried by at most one node is never duplicated onto two nodes. -/
theorem c8_icon_reassignment_no_duplication (v2d vpar : List (String × String))
    (vchild : String → List String) (rootId : Option String)
    (nodes0 : List SAPointNode) (v : String) (hv : v ≠ "")
    (hn : (nodes0.map (·.id)).Nodup) :
    countIcon (reassignIcons v2d vpar vchild rootId nodes0) v
        = countIcon nodes0 v ∧
    (countIcon nodes0 v ≤ 1 →
      countIcon (reassignIcons v2d vpar vchild rootId nodes0) v ≤ 1) := by
  have h := countIcon_reassignFold v2d vpar vchild rootId v hv
    (nodes0.map (·.id)) nodes0 hn
  exact ⟨h, fun h1 => h ▸ h1⟩

/-- C8 witness: the two-point diagram `c8Nodes` with `presOf` map
`p ↦ d`. -/
theorem c8_icon_witness :
    ("ic.png" ≠ "") ∧ ((c8Nodes.map (·.id)).Nodup) ∧
    (countIcon (reassignIcons [("p", "d")] [] (fun _ => []) none c8Nodes)
          "ic.png"
        = countIcon c8Nodes "ic.png" ∧
      (countIcon c8Nodes "ic.png" ≤ 1 →
        countIcon (reassignIcons [("p", "d")] [] (fun _ => []) none c8Nodes)
            "ic.png" ≤ 1)) :=
  ⟨by decide, by decide,
    c8_icon_reassignment_no_duplication [("p", "d")] [] (fun _ => []) none
      c8Nodes "ic.png" (by decide) (by decide)⟩

/-! ### C1 amended -/

/-- In a list with `Nodup` keys, `find?` by an element's key finds that
element. -/
theorem find?_map_nodup (f : RawSlide → Nat) :
    ∀ (l : List RawSlide) (s : RawSlide), (l.map f).Nodup → s ∈ l →
      l.find? (fun x => f x == f s) = some s := by
  intro l
  induction l with
  | nil => intro s _ hs; cases hs
  | cons y rest ih =>
    intro s hn hs
    simp only [List.map_cons, List.nodup_cons] at hn
    rw [List.find?_cons]
    by_cases hy : f y = f s
    · have : s = y := by
        rcases List.mem_cons.mp hs with rfl | hmem
        · rfl
        · exact absurd (hy ▸ List.mem_map_of_mem f hmem) hn.1
      subst this
      simp
    · have hb : (f y == f s) = false := by simp [hy]
      rw [hb]
      rcases List.mem_cons.mp hs with rfl | hmem
      · exact absurd rfl hy
      · exact ih s hn.2 hmem

/-- With unique slide ids, the deck index maps a slide's id back to the
slide itself. -/
theorem slideIndex_self (deck : List RawSlide)
    (hn : (deck.map (·.slideId)).Nodup) :
    ∀ s ∈ deck, slideIndex deck s.slideId = some s := by
  intro s hs
  unfold slideIndex
  have hn' : (deck.reverse.map (·.slideId)).Nodup := by
    rw [List.map_reverse]
    exact List.nodup_reverse.mpr hn
  exact find?_map_nodup (·.slideId) deck.reverse s hn' (List.mem_reverse.mpr hs)

/-- Resolving a list of deck slides through the index is the identity. -/
theorem filterMap_slideIndex_self (deck : List RawSlide)
    (hn : (deck.map (·.slideId)).Nodup) :
    ∀ (l : List RawSlide), (∀ s ∈ l, s ∈ deck) →
      (l.map (·.slideId)).filterMap (slideIndex deck) = l := by
  intro l
  induction l with
  | nil => intro _; rfl
  | cons s rest ih =>
    intro hsub
    simp only [List.map_cons, List.filterMap_cons]
    rw [slideIndex_self deck hn s (hsub s (List.mem_cons_self _ _))]
    rw [ih (fun x hx => hsub x (List.mem_cons_of_mem _ hx))]

/-- Dropping declarative sections that resolved to no slide does not
change the concatenation of resolved slides. -/
theorem dropEmpty_flatten (deck : List RawSlide) :
    ∀ (secs : List (String × List Nat)),
      ((secs.filterMap (fun sec =>
          let resolved := sec.2.filterMap (slideIndex deck)
          if resolved.isEmpty then none else some (sec.1, resolved))).map
        Prod.snd).flatten
      = ((secs.map (fun sec => sec.2.filterMap (slideIndex deck)))).flatten := by
  intro secs
  induction secs with
  | nil => rfl
  | cons sec rest ih =>
    simp only [List.filterMap_cons, List.map_cons, List.flatten_cons]
    by_cases he : (sec.2.filterMap (slideIndex deck)).isEmpty
    · have : sec.2.filterMap (slideIndex deck) = [] := List.isEmpty_iff.mp he
      simp only [he, if_true]
      rw [this]
      simpa using ih
    · simp only [he, Bool.false_eq_true, if_false, List.map_cons,
        List.flatten_cons, ih]

/-- A declarative section list whose slide-id lists concatenate to
exactly the deck's id list resolves to section entries whose slides
concatenate to the deck. -/
theorem xmlResolved_flatten (deck : List RawSlide)
    (secs : List (String × List Nat))
    (hn : (deck.map (·.slideId)).Nodup)
    (hcov : (secs.map Prod.snd).flatten = deck.map (·.slideId)) :
    ((secs.filterMap (fun sec =>
        let resolved := sec.2.filterMap (slideIndex deck)
        if resolved.isEmpty then none else some (sec.1, resolved))).map
      Prod.snd).flatten = deck := by
  rw [dropEmpty_flatten]
  have h1 : (secs.map (fun sec => sec.2.filterMap (slideIndex deck)))
      = ((secs.map Prod.snd).map (fun l => l.filterMap (slideIndex deck))) := by
    simp [List.map_map, Function.comp]
  rw [h1]
  rw [← List.filterMap_flatten]
  rw [hcov]
  exact filterMap_slideIndex_self deck hn deck (fun s hs => hs)

/-- Wrapping with the synthetic Default section preserves a
concatenation that already equals the deck. -/
theorem defaultWrap_flatten (doc : RawDoc) (m : List (String × List RawSlide))
    (h : (m.map Prod.snd).flatten = doc.deck) :
    (((if m.isEmpty then [("Default", doc.deck)] else m)).map Prod.snd).flatten
      = doc.deck := by
  by_cases hm : m.isEmpty <;> simp [hm, h]

/-- Dropping empty native sections does not change the concatenation. -/
theorem flatten_filter_nonempty (l : List (String × List RawSlide)) :
    ((l.filter (fun sec => !sec.2.isEmpty)).map Prod.snd).flatten
      = (l.map Prod.snd).flatten := by
  induction l with
  | nil => rfl
  | cons sec rest ih =>
    by_cases he : sec.2.isEmpty
    · have h2 : sec.2 = [] := List.isEmpty_iff.mp he
      simp [List.filter_cons, he, h2, ih]
    · simp [List.filter_cons, he, ih]

/-- C1 amended: the partition property holds for every deck with unique
slide ids *provided* the section source that fires covers the deck
exactly — unconditionally under the Default tier, and under the
native/declarative tiers when their section data concatenates to the
deck (with no partial native output retained after an error). -/
theorem c1_sections_concat_amended (doc : RawDoc)
    (hn : (doc.deck.map (·.slideId)).Nodup)
    (hc : tierCoverage doc = true) :
    ((resolvedSections doc).map Prod.snd).flatten = doc.deck := by
  have hmain : getSectionsMapping doc = [] ∨
      ((getSectionsMapping doc).map Prod.snd).flatten = doc.deck := by
    unfold getSectionsMapping
    unfold tierCoverage at hc
    by_cases hg : (doc.nativeAvailable && !doc.nativeSecs.isEmpty) = true
    · rw [if_pos hg] at hc
      rw [if_pos hg]
      cases herr : doc.nativeErrAfter with
      | none =>
        rw [herr] at hc
        dsimp only at hc ⊢
        right
        rw [flatten_filter_nonempty, eq_of_beq hc]
      | some k =>
        rw [herr] at hc
        dsimp only at hc ⊢
        have hp : ((doc.nativeSecs.take k).filter (fun sec => !sec.2.isEmpty)) = [] :=
          List.isEmpty_iff.mp (Bool.and_elim_left hc)
        have hx : xmlCoverage doc = true := Bool.and_elim_right hc
        rw [hp]
        unfold xmlTier
        unfold xmlCoverage at hx
        cases hxs : doc.xmlSecs with
        | none => left; rfl
        | some secs =>
          rw [hxs] at hx
          dsimp only at hx ⊢
          right
          simpa using xmlResolved_flatten doc.deck secs hn (eq_of_beq hx)
    · rw [if_neg hg] at hc
      rw [if_neg hg]
      unfold xmlTier
      unfold xmlCoverage at hc
      cases hxs : doc.xmlSecs with
      | none => left; rfl
      | some secs =>
        rw [hxs] at hc
        dsimp only at hc ⊢
        right
        simpa using xmlResolved_flatten doc.deck secs hn (eq_of_beq hc)
  rcases hmain with hempty | hflat
  · unfold resolvedSections
    rw [hempty]
    simp
  · unfold resolvedSections
    exact defaultWrap_flatten doc _ hflat

/-- C1 witness: the amended statement at `c1WitDoc` (Default tier). -/
theorem c1_sections_concat_witness :
    ((c1WitDoc.deck.map (·.slideId)).Nodup) ∧ tierCoverage c1WitDoc = true ∧
    ((resolvedSections c1WitDoc).map Prod.snd).flatten = c1WitDoc.deck :=
  ⟨by decide, by decide,
    c1_sections_concat_amended c1WitDoc (by decide) (by decide)⟩

/-! ### C4 amended -/

/-- An id present in `nodes_map` resolves. -/
theorem getPNode_of_mem_ids (nodes : List SAPointNode) (m : String)
    (h : m ∈ nodes.map (·.id)) : ∃ n, getPNode nodes m = some n := by
  obtain ⟨x, hx, hid⟩ := List.mem_map.mp h
  have : (nodes.find? (fun y => y.id == m)).isSome :=
    List.find?_isSome.mpr ⟨x, hx, by simp [hid]⟩
  obtain ⟨n, hn⟩ := Option.isSome_iff_exists.mp this
  exact ⟨n, hn⟩

/-- If every child build succeeds, the sequencing succeeds. -/
theorem buildKidsAux_all_some (f : String → Option SmartArtNode) :
    ∀ (ms : List String), (∀ m ∈ ms, ∃ t, f m = some t) →
      ∃ ts, buildKidsAux f ms = some ts := by
  intro ms
  induction ms with
  | nil => intro _; exact ⟨[], rfl⟩
  | cons m rest ih =>
    intro h
    obtain ⟨t, ht⟩ := h m (List.mem_cons_self _ _)
    obtain ⟨ts, hts⟩ := ih (fun x hx => h x (List.mem_cons_of_mem _ hx))
    exact ⟨t :: ts, by simp [buildKidsAux, ht, hts]⟩

/-- With no structural connections every known point builds as a leaf. -/
theorem buildNode_no_conns (nodes : List SAPointNode) (pres : List String)
    (m : String) (lvl : Nat) (hm : m ∈ nodes.map (·.id)) :
    ∃ t, buildNode nodes [] pres (nodes.length + 1) m lvl = some t := by
  obtain ⟨n, hn⟩ := getPNode_of_mem_ids nodes m hm
  refine ⟨SmartArtNode.mk m n.text [] lvl n.icon n.iconAlt, ?_⟩
  simp [buildNode, hn, childrenOf, buildKidsAux]

/-- With no structural connections the tree build always succeeds. -/
theorem buildTree_no_conns (nodes : List SAPointNode) (pres : List String) :
    ∃ ts, buildTree nodes [] pres = some ts := by
  have hroots : ∀ m ∈ rootIds nodes [] pres, m ∈ nodes.map (·.id) := by
    intro m hm
    exact List.mem_of_mem_filter hm
  obtain ⟨rs, hrs⟩ := buildKidsAux_all_some _ (rootIds nodes [] pres)
    (fun m hm => buildNode_no_conns nodes pres m 0 (hroots m hm))
  exact ⟨(rs.map collapseRoot).flatten, by simp [buildTree, hrs]⟩

theorem parsePoints_nil : parsePoints [] = [] := rfl

theorem reassignIcons_nil (a b : List (String × String))
    (c : String → List String) (d : Option String) :
    reassignIcons a b c d [] = [] := rfl

theorem buildTree_nil_nodes (conns : List (String × String))
    (pres : List String) : buildTree [] conns pres = some [] := rfl

/-- C4 amended: a parsed diagram payload with no connections, or with no
points, still yields a result (with an empty node list when there are no
points); the SmartArt block is then emitted, not omitted.  Only an
unresolvable or unparsable payload — or a diverging tree build — yields
no result. -/
theorem c4_amended_payload_yields_result (layout : String) (pl : DiagPayload)
    (h : pl.cxns = [] ∨ pl.points = []) :
    ∃ r, smartArtExtract layout pl = some r := by
  obtain ⟨points, cxns⟩ := pl
  rcases h with hc | hp
  · simp only at hc
    subst hc
    unfold smartArtExtract
    dsimp only
    obtain ⟨ts, hts⟩ := buildTree_no_conns
      (reassignIcons (visualToData ⟨points, []⟩) (visualParentPairs [])
        (visualChildrenOf []) (dataRootId points) (parsePoints points))
      (dkeys (visualToData ⟨points, []⟩) ++ dkeys (visualParentPairs []))
    rw [show structuralConns [] = [] from rfl, hts]
    exact ⟨_, rfl⟩
  · simp only at hp
    subst hp
    refine ⟨⟨layout, []⟩, ?_⟩
    unfold smartArtExtract
    dsimp only
    rw [parsePoints_nil, reassignIcons_nil, buildTree_nil_nodes]
    simp [filterEmptyNodes]

/-- C4 witness: the amended statement at the connection-free payload
`c4Payload`. -/
theorem c4_amended_witness :
    (c4Payload.cxns = [] ∨ c4Payload.points = []) ∧
    ∃ r, smartArtExtract "L" c4Payload = some r :=
  ⟨Or.inl rfl, c4_amended_payload_yields_result "L" c4Payload (Or.inl rfl)⟩

/-! ### C3 -/

/-- On the reachable `parOf` cycle `r → a → b → a`, the builds of `a`
and `b` fail at every fuel: the recursion is unbounded. -/
theorem cyc_ab_none : ∀ (fuel : Nat) (lvl : Nat),
    buildNode cycNodes cycConns [] fuel "a" lvl = none ∧
    buildNode cycNodes cycConns [] fuel "b" lvl = none := by
  intro fuel
  induction fuel with
  | zero => intro lvl; exact ⟨rfl, rfl⟩
  | succ n ih =>
    intro lvl
    constructor
    · have hb := (ih (lvl + 1)).2
      have h1 : buildNode cycNodes cycConns [] (n + 1) "a" lvl
          = (match buildKidsAux
                (fun c => buildNode cycNodes cycConns [] n c (lvl + 1)) ["b"] with
             | some cs => some (SmartArtNode.mk "a" "A" cs lvl none none)
             | none => none) := rfl
      rw [h1]
      have h2 : buildKidsAux
          (fun c => buildNode cycNodes cycConns [] n c (lvl + 1)) ["b"] = none := by
        simp [buildKidsAux, hb]
      rw [h2]
    · have ha := (ih (lvl + 1)).1
      have h1 : buildNode cycNodes cycConns [] (n + 1) "b" lvl
          = (match buildKidsAux
                (fun c => buildNode cycNodes cycConns [] n c (lvl + 1)) ["a"] with
             | some cs => some (SmartArtNode.mk "b" "B" cs lvl none none)
             | none => none) := rfl
      rw [h1]
      have h2 : buildKidsAux
          (fun c => buildNode cycNodes cycConns [] n c (lvl + 1)) ["a"] = none := by
        simp [buildKidsAux, ha]
      rw [h2]

/-- C3 counterexample: `_build_tree` has no cycle guard — on a diagram
whose `parOf` edges form a cycle reachable from the single structural
root, the recursive build exceeds *every* fuel bound (in Python:
unbounded recursion until `RecursionError`), so tree construction does
not terminate normally and the embedded extractor yields no tree. -/
theorem c3_cycle_divergence_cex :
    buildTree cycNodes cycConns [] = none ∧
    ¬ ∃ (fuel : Nat) (t : SmartArtNode),
        buildNode cycNodes cycConns [] fuel "r" 0 = some t := by
  constructor
  · rfl
  · rintro ⟨fuel, t, ht⟩
    cases fuel with
    | zero => exact Option.noConfusion ht
    | succ n =>
      have ha := (cyc_ab_none n 1).1
      have h1 : buildNode cycNodes cycConns [] (n + 1) "r" 0
          = (match buildKidsAux
                (fun c => buildNode cycNodes cycConns [] n c 1) ["a"] with
             | some cs => some (SmartArtNode.mk "r" "R" cs 0 none none)
             | none => none) := rfl
      rw [h1] at ht
      have h2 : buildKidsAux
          (fun c => buildNode cycNodes cycConns [] n c 1) ["a"] = none := by
        simp [buildKidsAux, ha]
      rw [h2] at ht
      exact Option.noConfusion ht

/-- A successful child sequencing is pointwise successful builds. -/
theorem buildKidsAux_forall2 (f : String → Option SmartArtNode) :
    ∀ (ms : List String) (ns : List SmartArtNode),
      buildKidsAux f ms = some ns →
      List.Forall₂ (fun m n => f m = some n) ms ns := by
  intro ms
  induction ms with
  | nil =>
    intro ns h
    simp only [buildKidsAux] at h
    injection h with h
    subst h
    exact List.Forall₂.nil
  | cons m rest ih =>
    intro ns h
    simp only [buildKidsAux] at h
    cases hf : f m with
    | none => rw [hf] at h; simp at h
    | some t =>
      rw [hf] at h
      cases hr : buildKidsAux f rest with
      | none => rw [hr] at h; simp at h
      | some ts =>
        rw [hr] at h
        simp only at h
        injection h with h
        subst h
        exact List.Forall₂.cons hf (ih ts hr)

/-- Each element of the right list of a `Forall₂` has a related witness
on the left. -/
theorem forall2_mem_right {R : String → SmartArtNode → Prop} :
    ∀ {ms : List String} {ns : List SmartArtNode},
      List.Forall₂ R ms ns → ∀ n ∈ ns, ∃ m ∈ ms, R m n := by
  intro ms ns h
  induction h with
  | nil => intro n hn; cases hn
  | cons hR hrest ih =>
    intro n hn
    rcases List.mem_cons.mp hn with rfl | hmem
    · exact ⟨_, List.mem_cons_self _ _, hR⟩
    · obtain ⟨m, hm, hRm⟩ := ih n hmem
      exact ⟨m, List.mem_cons_of_mem _ hm, hRm⟩

/-- A built node carries the id it was built for. -/
theorem buildNode_id (nodes : List SAPointNode) (conns : List (String × String))
    (pres : List String) :
    ∀ (fuel : Nat) (mid : String) (lvl : Nat) (t : SmartArtNode),
      buildNode nodes conns pres fuel mid lvl = some t → t.id = mid := by
  intro fuel
  cases fuel with
  | zero => intro mid lvl t h; exact Option.noConfusion h
  | succ n =>
    intro mid lvl t h
    simp only [buildNode] at h
    split at h
    · exact Option.noConfusion h
    · split at h
      · injection h with h
        subst h
        rfl
      · exact Option.noConfusion h

/-- Structural children lie in `nodes_map`. -/
theorem childrenOf_mem_ids (nodes : List SAPointNode)
    (conns : List (String × String)) (mid c : String)
    (hc : c ∈ childrenOf nodes conns mid) : c ∈ nodes.map (·.id) := by
  unfold childrenOf at hc
  obtain ⟨sd, hsd, rfl⟩ := List.mem_map.mp hc
  have h2 := (List.mem_filter.mp hsd).2
  simp only [Bool.and_eq_true, List.any_eq_true] at h2
  obtain ⟨⟨_, ⟨x, hx, hid⟩⟩, _⟩ := h2
  exact List.mem_map.mpr ⟨x, hx, by simpa using hid⟩

/-- A structural child pair is one of the `parOf` connections. -/
theorem childrenOf_sub_conns (nodes : List SAPointNode)
    (conns : List (String × String)) (mid c : String)
    (hc : c ∈ childrenOf nodes conns mid) : (mid, c) ∈ conns := by
  unfold childrenOf at hc
  obtain ⟨sd, hsd, rfl⟩ := List.mem_map.mp hc
  have hmem := (List.mem_filter.mp hsd).1
  have h2 := (List.mem_filter.mp hsd).2
  simp only [Bool.and_eq_true] at h2
  have : sd.1 = mid := by simpa using h2.2
  have hsd2 : (mid, sd.2) = sd := by
    rw [← this]
  rw [hsd2]
  exact hmem

/-- Along every successful build, the rank strictly decreases from
parent to child. -/
theorem buildNode_rankdec (nodes : List SAPointNode)
    (conns : List (String × String)) (pres : List String)
    (rank : String → Nat)
    (hedge : ∀ mid c, c ∈ childrenOf nodes conns mid → rank c < rank mid) :
    ∀ (fuel : Nat) (mid : String) (lvl : Nat) (t : SmartArtNode),
      buildNode nodes conns pres fuel mid lvl = some t → RankDec rank t := by
  intro fuel
  induction fuel with
  | zero => intro mid lvl t h; exact Option.noConfusion h
  | succ n ih =>
    intro mid lvl t h
    simp only [buildNode] at h
    split at h
    · exact Option.noConfusion h
    case h_2 nd hnd =>
      split at h
      case h_2 => exact Option.noConfusion h
      case h_1 cs hcs =>
        injection h with h
        subst h
        have hf2 := buildKidsAux_forall2 _ _ _ hcs
        refine RankDec.mk mid nd.text cs lvl nd.icon nd.iconAlt ?_ ?_
        · intro c hc
          obtain ⟨m, hm, hbuild⟩ := forall2_mem_right hf2 c hc
          have hmk : m ∈ childrenOf nodes conns mid :=
            List.mem_of_mem_filter hm
          have hid : c.id = m := buildNode_id nodes conns pres n m (lvl + 1) c hbuild
          rw [hid]
          exact hedge mid m hmk
        · intro c hc
          obtain ⟨m, hm, hbuild⟩ := forall2_mem_right hf2 c hc
          exact ih m (lvl + 1) c hbuild

/-- Termination: a node whose rank is below the fuel builds
successfully when ranks decrease along structural edges. -/
theorem buildNode_some_of_rank (nodes : List SAPointNode)
    (conns : List (String × String)) (pres : List String)
    (rank : String → Nat)
    (hedge : ∀ mid c, c ∈ childrenOf nodes conns mid → rank c < rank mid) :
    ∀ (fuel : Nat) (mid : String) (lvl : Nat),
      mid ∈ nodes.map (·.id) → rank mid < fuel →
      ∃ t, buildNode nodes conns pres fuel mid lvl = some t := by
  intro fuel
  induction fuel with
  | zero => intro mid lvl _ hr; omega
  | succ n ih =>
    intro mid lvl hm hr
    obtain ⟨nd, hnd⟩ := getPNode_of_mem_ids nodes mid hm
    have hkids : ∀ c ∈ (childrenOf nodes conns mid).filter
        (fun c => !pres.contains c),
        ∃ t, buildNode nodes conns pres n c (lvl + 1) = some t := by
      intro c hc
      have hcc : c ∈ childrenOf nodes conns mid := List.mem_of_mem_filter hc
      have hcid : c ∈ nodes.map (·.id) := childrenOf_mem_ids nodes conns mid c hcc
      have hlt : rank c < rank mid := hedge mid c hcc
      exact ih c (lvl + 1) hcid (by omega)
    obtain ⟨ts, hts⟩ := buildKidsAux_all_some _ _ hkids
    refine ⟨SmartArtNode.mk mid nd.text ts lvl nd.icon nd.iconAlt, ?_⟩
    simp only [buildNode]
    rw [hnd]
    dsimp only
    rw [hts]

/-- A proper descendant of a rank-decreasing tree has strictly smaller
rank than the subtree root. -/
theorem rankdec_desc (rank : String → Nat) :
    ∀ (t d : SmartArtNode), ProperDesc d t → RankDec rank t →
      rank d.id < rank t.id := by
  intro t d h
  induction h with
  | base t c hc =>
    intro hr
    cases hr with
    | mk i tx cs lvl ic ia hlt hrec =>
      simp only [SmartArtNode.children] at hc
      simpa [SmartArtNode.id] using hlt c hc
  | step t c d hc hdc ih =>
    intro hr
    cases hr with
    | mk i tx cs lvl ic ia hlt hrec =>
      simp only [SmartArtNode.children] at hc
      have h1 := hlt c hc
      have h2 := ih (hrec c hc)
      simp only [SmartArtNode.id] at *
      omega

/-- Rank-decrease is inherited by subtrees. -/
theorem rankdec_sub (rank : String → Nat) :
    ∀ (t s : SmartArtNode), ProperDesc s t → RankDec rank t →
      RankDec rank s := by
  intro t s h
  induction h with
  | base t c hc =>
    intro hr
    cases hr with
    | mk i tx cs lvl ic ia hlt hrec =>
      simp only [SmartArtNode.children] at hc
      exact hrec c hc
  | step t c d hc hdc ih =>
    intro hr
    cases hr with
    | mk i tx cs lvl ic ia hlt hrec =>
      simp only [SmartArtNode.children] at hc
      exact ih (hrec c hc)

/-- A rank-decreasing tree has no node that is its own ancestor. -/
theorem rankdec_nsa (rank : String → Nat) (t : SmartArtNode)
    (hr : RankDec rank t) : NoSelfAncestor t := by
  intro s hs d hd
  have hrs : RankDec rank s := by
    rcases hs with rfl | hps
    · exact hr
    · exact rankdec_sub rank t s hps hr
  have hlt := rankdec_desc rank s d hd hrs
  intro he
  rw [he] at hlt
  omega

/-- C3 amended: on every payload whose `parOf` edges admit a topological
ranking bounded by the node count (equivalently: whose structural
relation is acyclic), `_build_tree` terminates with a forest, and in
every returned tree no node is its own ancestor.  (On cyclic payloads
the build diverges — see the counterexample.) -/
theorem c3_build_terminates_no_self_ancestor (nodes : List SAPointNode)
    (conns : List (String × String)) (pres : List String)
    (rank : String → Nat)
    (hedge : ∀ sd ∈ conns, rank sd.2 < rank sd.1)
    (hbound : ∀ m ∈ nodes.map (·.id), rank m ≤ nodes.length) :
    ∃ ts, buildTree nodes conns pres = some ts ∧
      ∀ t ∈ ts, NoSelfAncestor t := by
  have hedge' : ∀ mid c, c ∈ childrenOf nodes conns mid → rank c < rank mid :=
    fun mid c hc => hedge (mid, c) (childrenOf_sub_conns nodes conns mid c hc)
  have hroots : ∀ m ∈ rootIds nodes conns pres,
      ∃ t, buildNode nodes conns pres (nodes.length + 1) m 0 = some t := by
    intro m hm
    have hmid : m ∈ nodes.map (·.id) := List.mem_of_mem_filter hm
    exact buildNode_some_of_rank nodes conns pres rank hedge' (nodes.length + 1)
      m 0 hmid (by have := hbound m hmid; omega)
  obtain ⟨rs, hrs⟩ := buildKidsAux_all_some _ _ hroots
  refine ⟨(rs.map collapseRoot).flatten, ?_, ?_⟩
  · simp only [buildTree]
    rw [hrs]
  · intro t ht
    obtain ⟨l, hl, htl⟩ := List.mem_flatten.mp ht
    obtain ⟨r, hr, rfl⟩ := List.mem_map.mp hl
    obtain ⟨m, hm, hbuild⟩ := forall2_mem_right (buildKidsAux_forall2 _ _ _ hrs) r hr
    have hrd : RankDec rank r :=
      buildNode_rankdec nodes conns pres rank hedge' _ m 0 r hbuild
    have hrdt : RankDec rank t := by
      unfold collapseRoot at htl
      split at htl
      · cases hrd with
        | mk i tx cs lvl ic ia hlt hrec =>
          simp only [SmartArtNode.children] at htl
          exact hrec t htl
      · rcases List.mem_singleton.mp htl with rfl
        exact hrd
    exact rankdec_nsa rank t hrdt

/-- C3 witness: the amended statement at the acyclic chain
`r → a → b` with ranking `c3wRank`. -/
theorem c3_build_witness :
    (∀ sd ∈ c3wConns, c3wRank sd.2 < c3wRank sd.1) ∧
    (∀ m ∈ c3wNodes.map (·.id), c3wRank m ≤ c3wNodes.length) ∧
    ∃ ts, buildTree c3wNodes c3wConns [] = some ts ∧
      ∀ t ∈ ts, NoSelfAncestor t :=
  ⟨by decide, by decide,
    c3_build_terminates_no_self_ancestor c3wNodes c3wConns [] c3wRank
      (by decide) (by decide)⟩

end PptToLearning
